import Mathlib

/-!
Verification of the HawkwardFinances persistence and lifecycle subsystem.

The development shallowly embeds the server (`server.js`, the Express app with
backup recovery, the write queue and the auto-shutdown monitor) and the pure
data utilities (`lib/data-utils.js`).  JavaScript values flowing through the
handlers are modelled by the inductive `JsValue`; JavaScript numbers are
modelled exactly by rationals (the claims only exercise values with short
decimal representations, where IEEE-754 doubles and rationals agree); `NaN`
is modelled by `Option` / a dedicated `PFloat` constructor where it can arise.
-/

namespace Hawkward

/-- JavaScript values as produced by `JSON.parse` on request bodies and files.
`undefined` is the result of reading a missing object property; it cannot
appear in freshly parsed JSON. -/
inductive JsValue where
  | null
  | undefined
  | bool (b : Bool)
  | num (q : ℚ)
  | str (s : String)
  | arr (xs : List JsValue)
  | obj (fields : List (String × JsValue))

/-- JavaScript truthiness.  `NaN` cannot occur in a `JsValue` (parsed JSON
never contains it), so `num` is falsy exactly at `0`. -/
def truthy : JsValue → Bool
  | .null => false
  | .undefined => false
  | .bool b => b
  | .num q => q != 0
  | .str s => s ≠ ""
  | .arr _ => true
  | .obj _ => true

/-- Look up a field of an object field list (JS object keys are unique; the
model keeps the first binding). -/
def getField : List (String × JsValue) → String → JsValue
  | [], _ => .undefined
  | (k', v) :: rest, k => if k' = k then v else getField rest k

/-- Set a field of an object field list: an existing key is updated in place
(JS preserves insertion order), a new key is appended. -/
def setField (fields : List (String × JsValue)) (k : String) (v : JsValue) :
    List (String × JsValue) :=
  match fields with
  | [] => [(k, v)]
  | (k', v') :: rest =>
      if k' = k then (k', v) :: rest else (k', v') :: setField rest k v

/-- Property read `target[k]` for the shapes the handlers read from: objects
yield the field (or `undefined`), arrays and primitives yield `undefined` for
the property names the code uses (the five store names, which are neither
array indices nor `"length"`). -/
def JsValue.getProp (v : JsValue) (k : String) : JsValue :=
  match v with
  | .obj fields => getField fields k
  | _ => .undefined

/-- Decimal digits of the fractional part `0 ≤ f < 1`, up to `fuel` digits.
`String(n)` in JS prints the shortest round-tripping decimal of the double;
for values written as short decimal literals the two agree, which is the only
regime the claims exercise. -/
def fracDigits : ℕ → ℚ → List Char
  | 0, _ => []
  | fuel + 1, f =>
      if f = 0 then []
      else
        let f10 := f * 10
        let d := f10.floor
        Char.ofNat (48 + d.toNat) :: fracDigits fuel (f10 - d)

/-- Rendering of a (finite) JS number as by `String(n)`, for numbers in the
plain-decimal range (scientific notation for very large/small magnitudes is
not modelled; no code path below depends on it). -/
def numToString (q : ℚ) : String :=
  let a := |q|
  let ip := a.floor.toNat
  let ds := fracDigits 40 (a - a.floor)
  let core := toString ip ++ (if ds.isEmpty then "" else "." ++ String.mk ds)
  if q < 0 then "-" ++ core else core

mutual

/-- JS `String(value)` conversion. -/
def jsToString : JsValue → String
  | .null => "null"
  | .undefined => "undefined"
  | .bool true => "true"
  | .bool false => "false"
  | .num q => numToString q
  | .str s => s
  | .arr xs => String.intercalate "," (jsArrStrings xs)
  | .obj _ => "[object Object]"

/-- `Array.prototype.toString` joins elements with `","`, rendering `null`
and `undefined` elements as the empty string. -/
def jsArrStrings : List JsValue → List String
  | [] => []
  | v :: rest =>
      (match v with
       | .null => ""
       | .undefined => ""
       | w => jsToString w) :: jsArrStrings rest

end

/-- Split a character list at the first `'>'`, returning the suffix after it
(together with a length bound used for termination); `none` when the list
contains no `'>'`. -/
def splitAtGt : (l : List Char) → Option { rest : List Char // rest.length < l.length }
  | [] => none
  | c :: rest =>
      if c = '>' then some ⟨rest, by rw [List.length_cons]; omega⟩
      else
        match splitAtGt rest with
        | some ⟨r, h⟩ => some ⟨r, by rw [List.length_cons]; omega⟩
        | none => none

/-- Global replacement of `/<[^>]*>/g` by the empty string: at each `'<'` the
regex consumes up to the first following `'>'` (if any); a `'<'` with no
later `'>'` matches nothing and the remainder is kept verbatim. -/
def stripOut : List Char → List Char
  | [] => []
  | c :: rest =>
      if c = '<' then
        match splitAtGt rest with
        | some after => stripOut after.1
        | none => c :: rest
      else c :: stripOut rest
termination_by l => l.length
decreasing_by
  · exact Nat.lt_succ_of_lt after.2
  · rw [List.length_cons]; omega

/-- Presence of a complete `<...>` tag span: a `'<'` with some later `'>'`. -/
def hasTag : List Char → Bool
  | [] => false
  | c :: rest => if c = '<' then decide ('>' ∈ rest) else hasTag rest

/-- Source `sanitizeString(value, maxLength)`: falsy input yields `""`;
otherwise `String(value)` is trimmed, tag spans `<...>` are removed, and the
result is truncated to `maxLength` characters. -/
def sanitizeString (value : JsValue) (maxLength : ℕ) : String :=
  if truthy value = false then ""
  else String.mk ((stripOut (jsToString value).trim.data).take maxLength)

/-- Result of JS `parseFloat` / `parseInt`-style conversion: `NaN`, a signed
infinity, or a finite value (kept exact as a rational). -/
inductive PFloat where
  | nan
  | inf (pos : Bool)
  | fin (q : ℚ)

/-- Value of a list of decimal digit characters. -/
def digitsToNat (ds : List Char) : ℕ :=
  ds.foldl (fun a c => a * 10 + (c.toNat - 48)) 0

/-- JS `parseFloat` on a string: skip leading whitespace, optional sign,
`Infinity`, else the longest decimal-literal prefix (integer part, optional
fraction, optional exponent); `NaN` when no digits are found.  The value is
kept exact instead of being rounded to a double. -/
def parseFloatStr (s : String) : PFloat :=
  let cs := s.data.dropWhile Char.isWhitespace
  let signed : Bool × List Char :=
    match cs with
    | '-' :: t => (true, t)
    | '+' :: t => (false, t)
    | _ => (false, cs)
  let neg := signed.1
  let cs := signed.2
  if cs.take 8 = "Infinity".data then .inf (!neg)
  else
    let p1 := cs.span Char.isDigit
    let ip := p1.1
    let p2 : List Char × List Char :=
      match p1.2 with
      | '.' :: t => t.span Char.isDigit
      | _ => ([], p1.2)
    let fp := p2.1
    if ip.isEmpty ∧ fp.isEmpty then .nan
    else
      let mant : ℚ := (digitsToNat ip : ℚ) + (digitsToNat fp : ℚ) / (10 ^ fp.length)
      let expv : ℤ :=
        match p2.2 with
        | c :: t =>
            if c = 'e' ∨ c = 'E' then
              let es : Bool × List Char :=
                match t with
                | '-' :: u => (true, u)
                | '+' :: u => (false, u)
                | _ => (false, t)
              let eds := es.2.takeWhile Char.isDigit
              if eds.isEmpty then 0
              else (if es.1 then -1 else 1) * (digitsToNat eds : ℤ)
            else 0
        | [] => 0
      .fin ((if neg then -mant else mant) * (10 : ℚ) ^ expv)

/-- JS `parseFloat(value)`: a number argument round-trips exactly through
`String`/`parseFloat`, other values go through string conversion. -/
def jsParseFloat : JsValue → PFloat
  | .num q => .fin q
  | v => parseFloatStr (jsToString v)

/-- Source `sanitizeNumber(value, min, max)`: `parseFloat`, `NaN ↦ min`, then
clamp with `Math.max(min, Math.min(max, num))`. -/
def sanitizeNumber (value : JsValue) (min max : ℚ) : ℚ :=
  match jsParseFloat value with
  | .nan => min
  | .inf true => Max.max min max
  | .inf false => min
  | .fin q => Max.max min (Min.min max q)

/-- `Number.MAX_SAFE_INTEGER`. -/
def maxSafeInteger : ℚ := 9007199254740991

/-- The check `!account || typeof account !== "object"` from
`normalizeAccount`: true exactly when the value is not an object in the JS
sense.  `typeof null` is `"object"` but `null` is falsy; arrays have
`typeof` `"object"` and are therefore accepted. -/
def isNonObject (account : JsValue) : Bool :=
  !truthy account ||
    !(match account with
      | .obj _ => true
      | .arr _ => true
      | .null => true
      | _ => false)

/-- JS string `||` default: the empty string is falsy. -/
def strOrDefault (s d : String) : String := if s = "" then d else s

/-- Source `normalizeAccount(account)`: `null` for non-objects, otherwise the
canonical account object with sanitized fields and defaults. -/
def normalizeAccount (account : JsValue) : Option JsValue :=
  if isNonObject account then none
  else some (.obj [
    ("id", .num (sanitizeNumber (account.getProp "id") 0 maxSafeInteger)),
    ("name", .str (sanitizeString (account.getProp "name") 100)),
    ("category", .str (sanitizeString (account.getProp "category") 100)),
    ("type", .str (strOrDefault (sanitizeString (account.getProp "type") 20) "expense")),
    ("monthlyPayment", .num (sanitizeNumber (account.getProp "monthlyPayment") 0 1000000000)),
    ("annualPayment", .num (sanitizeNumber (account.getProp "annualPayment") 0 1000000000)),
    ("hasReminder", .str (strOrDefault (sanitizeString (account.getProp "hasReminder") 10) "No")),
    ("status", .str (strOrDefault (sanitizeString (account.getProp "status") 30) "Active")),
    ("priority", .str (strOrDefault (sanitizeString (account.getProp "priority") 30) "Important")),
    ("ownerId", if truthy (account.getProp "ownerId")
                then .str (sanitizeString (account.getProp "ownerId") 100)
                else .null)])

/-- The check `x && typeof x === "object" ? x : {}` used by `normalizeData`
for `profile`, `timeline` and `settings`: object-typed values — which in JS
includes arrays — pass through, everything else becomes `{}`. -/
def objOrEmpty (v : JsValue) : JsValue :=
  if isNonObject v then .obj [] else v

/-- The defaulted alias `const data = input && typeof input === "object" ?
input : {}` at the top of `normalizeData`. -/
def dataOf (input : JsValue) : JsValue :=
  if isNonObject input then .obj [] else input

/-- Source `normalizeData(input)`. -/
def normalizeData (input : JsValue) : JsValue :=
  .obj [
    ("accounts", match (dataOf input).getProp "accounts" with
                 | .arr xs => .arr (xs.filterMap normalizeAccount)
                 | _ => .arr []),
    ("profile", objOrEmpty ((dataOf input).getProp "profile")),
    ("timeline", objOrEmpty ((dataOf input).getProp "timeline")),
    ("goals", match (dataOf input).getProp "goals" with
              | .arr xs => .arr xs
              | _ => .arr []),
    ("settings", objOrEmpty ((dataOf input).getProp "settings"))]

/-- Contents of an on-disk file, abstracted to their `JSON.parse` result: the
handlers inspect file bytes only through `JSON.parse`, and every write either
stores `JSON.stringify` output or copies a file verbatim, so the abstraction
is preserved by all modelled operations. -/
inductive FileContent where
  | invalid
  | valid (v : JsValue)

/-- The two data files the read and save endpoints touch (`data.json` and
`data.backup.json`); `none` models a missing file. -/
structure Fs where
  dataFile : Option FileContent
  backupFile : Option FileContent

mutual

/-- The value that re-parses from `JSON.stringify v`: `undefined`-valued
object fields are dropped and `undefined` array elements serialize as
`null` (a top-level `undefined` cannot reach the modelled writes, which
always receive objects or arrays; it is mapped to `null` for totality). -/
def stringifyNorm : JsValue → JsValue
  | .undefined => .null
  | .null => .null
  | .bool b => .bool b
  | .num q => .num q
  | .str s => .str s
  | .arr xs => .arr (stringifyNormList xs)
  | .obj fields => .obj (stringifyNormFields fields)

def stringifyNormList : List JsValue → List JsValue
  | [] => []
  | v :: rest => stringifyNorm v :: stringifyNormList rest

def stringifyNormFields : List (String × JsValue) → List (String × JsValue)
  | [] => []
  | (k, v) :: rest =>
      match v with
      | .undefined => stringifyNormFields rest
      | w => (k, stringifyNorm w) :: stringifyNormFields rest

end

mutual

/-- Values producible by `JSON.parse`: no `undefined` anywhere. -/
def isJsonValue : JsValue → Bool
  | .undefined => false
  | .null => true
  | .bool _ => true
  | .num _ => true
  | .str _ => true
  | .arr xs => isJsonList xs
  | .obj fields => isJsonFields fields

def isJsonList : List JsValue → Bool
  | [] => true
  | v :: rest => isJsonValue v && isJsonList rest

def isJsonFields : List (String × JsValue) → Bool
  | [] => true
  | (_, v) :: rest => isJsonValue v && isJsonFields rest

end

/-- One write enqueued through `queueWrite(data)`: the stringified document
payload, and whether the underlying `fs.promises.writeFile` call succeeds
when it actually runs (disk errors are environment choices). -/
structure WriteReq where
  payload : JsValue
  succeeds : Bool

/-- State of the single write chain `writeQueue`: the primary file contents,
whether the chain promise is currently rejected, and the payloads whose
`writeFile` call actually started, in execution order. -/
structure ChainState where
  fileContents : FileContent
  chainRejected : Bool
  executed : List JsValue

/-- `writeQueue = writeQueue.then(() => fs.promises.writeFile(DATA_FILE,
payload))`: `.then` with only an onFulfilled handler runs the next write only
if the previous chain promise fulfilled; if it rejected, the handler is
skipped and the rejection propagates to the new chain promise.  A failed
`writeFile` is modelled as leaving the previous contents (no theorem below
depends on the contents after a failed write). -/
def stepWrite (s : ChainState) (w : WriteReq) : ChainState :=
  if s.chainRejected then s
  else if w.succeeds then
    { fileContents := .valid w.payload, chainRejected := false,
      executed := s.executed ++ [w.payload] }
  else
    { s with chainRejected := true, executed := s.executed ++ [w.payload] }

/-- Running a submission-ordered sequence of enqueued writes through the
chain. -/
def runWriteQueue (s : ChainState) (ws : List WriteReq) : ChainState :=
  ws.foldl stepWrite s

/-- Error response body `{error, details}`; `details` carries the runtime
exception message, modelled by a fixed placeholder string. -/
def errorBody (msg details : String) : JsValue :=
  .obj [("error", .str msg), ("details", .str details)]

/-- Placeholder for the `err.message` diagnostic text of a parse failure. -/
def parseErrDetails : String := "Unexpected token in JSON"

/-- Outcome of a request: HTTP status, JSON response body, and the file
system afterwards. -/
structure GetResult where
  status : ℕ
  body : JsValue
  fs : Fs

/-- Handler of `app.get('/api/data')`: read and parse the primary file and
respond with `normalizeData` of it; on a read or parse failure, if the
backup exists and parses, write the backup bytes over the primary and
respond with the backup's parsed content (not normalized); otherwise respond
500 with diagnostics.  File writes are modelled as succeeding. -/
def apiGetData (fs : Fs) : GetResult :=
  match fs.dataFile with
  | some (.valid parsed) => ⟨200, normalizeData parsed, fs⟩
  | _ =>
    match fs.backupFile with
    | some (.valid backupData) =>
        ⟨200, backupData, { fs with dataFile := some (.valid backupData) }⟩
    | some .invalid =>
        ⟨500, errorBody "Data corrupted and backup restoration failed" parseErrDetails, fs⟩
    | none =>
        ⟨500, errorBody "Data corrupted and no backup available" parseErrDetails, fs⟩

/-- The five recognized store names. -/
def ALLOWED_STORES : List String := ["accounts", "profile", "timeline", "goals", "settings"]

/-- Canonical array-index property names (decimal numeral of an integer
below 2^32 − 1, no leading zero). -/
def toArrayIndex (k : String) : Option ℕ :=
  let cs := k.data
  if cs ≠ [] ∧ cs.all Char.isDigit ∧ (cs.head? ≠ some '0' ∨ cs = ['0']) then
    let n := digitsToNat cs
    if n < 4294967295 then some n else none
  else none

/-- Element assignment `xs[i] = v` on an array, padding holes with `null`
(sparse slots serialize as `null`). -/
def setElem (xs : List JsValue) (i : ℕ) (v : JsValue) : List JsValue :=
  if i < xs.length then xs.set i v
  else xs ++ List.replicate (i - xs.length) .null ++ [v]

/-- Array resize via assignment to `length`. -/
def resizeArr (xs : List JsValue) (n : ℕ) : List JsValue :=
  if n ≤ xs.length then xs.take n else xs ++ List.replicate (n - xs.length) .null

/-- Sloppy-mode property assignment `target[k] = v`, as observed through the
subsequent `JSON.stringify` of the target: objects get the field set;
assignment to a primitive is a silent no-op; reading a property of `null` or
`undefined` before assigning throws.  For arrays, a named (non-index)
property is set on the array object but dropped by `JSON.stringify`, so the
persisted value is unchanged; index properties assign elements, and
assignment to `"length"` resizes (modelled for plain nonnegative-integer
number values, with other length assignments approximated by the RangeError
throw; no theorem depends on that corner). -/
def jsSetProp (target : JsValue) (k : String) (v : JsValue) : Except Unit JsValue :=
  match target with
  | .obj fields => .ok (.obj (setField fields k v))
  | .arr xs =>
      if k = "length" then
        match v with
        | .num q =>
            if q.den = 1 ∧ 0 ≤ q.num ∧ q.num < 4294967296 then
              .ok (.arr (resizeArr xs q.num.toNat))
            else .error ()
        | _ => .error ()
      else
        match toArrayIndex k with
        | some i => .ok (.arr (setElem xs i v))
        | none => .ok (.arr xs)
  | .null => .error ()
  | .undefined => .error ()
  | other => .ok other

/-- The accounts branch of the save handler: an array is mapped through
`normalizeAccount` with nulls filtered out, anything else resets the store
to an empty list. -/
def accountsValue : JsValue → JsValue
  | .arr xs => .arr (xs.filterMap normalizeAccount)
  | _ => .arr []

/-- The value the save handler leaves in a store when it starts from an
empty document (parse-failure fallback): the handler branch for the store
name, with the freshly initialized empty container merged through.  Used to
state what a save persists when the prior document was discarded. -/
def newStoreValue (s : String) (d k : JsValue) : JsValue :=
  if s = "accounts" then accountsValue d
  else if (s = "profile" ∨ s = "timeline") ∧ truthy k then .obj [(jsToString k, d)]
  else d

/-- The store-update block of `app.post('/api/data')` applied to the parsed
(or defaulted) `dbData`, producing the document passed to `queueWrite`, or an
exception (caught by the handler's `try` and turned into a 500).  The cases:
an object `dbData` follows the source branches; an array `dbData` only ever
receives named-property assignments (the five store names are not indices),
which live on the in-memory array but are dropped by `JSON.stringify`, so
the persisted value is the unchanged array and no branch throws; a primitive
`dbData` ignores assignments (so persists unchanged) but
`dbData[storeName][key] = data` throws because the no-op initialization left
`dbData[storeName]` equal to `undefined`; a `null` `dbData` throws at the
first property read. -/
def applyStoreUpdate (dbData : JsValue) (s : String) (data key : JsValue) :
    Except Unit JsValue :=
  match dbData with
  | .obj fields =>
      let db1 := if truthy (getField fields s) = false then
                   (if s = "accounts" then setField fields s (.arr [])
                    else setField fields s (.obj []))
                 else fields
      if s = "accounts" then
        .ok (.obj (setField db1 s (accountsValue data)))
      else if s = "profile" ∨ s = "timeline" then
        if truthy key then
          let db2 := if truthy (getField db1 s) = false then setField db1 s (.obj []) else db1
          match jsSetProp (getField db2 s) (jsToString key) data with
          | .ok newStore => .ok (.obj (setField db2 s newStore))
          | .error e => .error e
        else .ok (.obj (setField db1 s data))
      else .ok (.obj (setField db1 s data))
  | .arr xs => .ok (.arr xs)
  | .null => .error ()
  | .undefined => .error ()
  | other =>
      if (s = "profile" ∨ s = "timeline") ∧ truthy key then .error ()
      else .ok other

/-- Outcome of a save request: status, body, resulting file system, and
whether the handler read resp. wrote the primary file. -/
structure PostResult where
  status : ℕ
  body : JsValue
  fs : Fs
  didRead : Bool
  didWrite : Bool

/-- Parse outcome of the primary file inside the save handler: `JSON.parse`
failure falls back to `dbData = {}`. -/
def parsedOrEmpty : FileContent → JsValue
  | .valid v => v
  | .invalid => .obj []

/-- Handler of `app.post('/api/data')`: validate `storeName` before any file
I/O, then read the primary file (a parse failure falls back to `{}`), apply
the store update, and persist via the write queue (the enqueued write is
modelled as succeeding).  A missing primary file makes `readFileSync` throw,
which the catch turns into a 500. -/
def apiPostData (fs : Fs) (reqBody : JsValue) : PostResult :=
  if truthy (reqBody.getProp "storeName") = false then
    ⟨400, .obj [("error", .str "storeName is required")], fs, false, false⟩
  else
    match reqBody.getProp "storeName" with
    | .str s =>
        if s ∈ ALLOWED_STORES then
          match fs.dataFile with
          | none => ⟨500, .obj [("error", .str "Failed to save data")], fs, true, false⟩
          | some content =>
              match applyStoreUpdate (parsedOrEmpty content) s (reqBody.getProp "data")
                      (reqBody.getProp "key") with
              | .ok newDb =>
                  ⟨200, .obj [("success", .bool true)],
                   { fs with dataFile := some (.valid (stringifyNorm newDb)) }, true, true⟩
              | .error _ => ⟨500, .obj [("error", .str "Failed to save data")], fs, true, false⟩
        else ⟨400, .obj [("error", .str "Invalid storeName")], fs, false, false⟩
    | _ => ⟨400, .obj [("error", .str "Invalid storeName")], fs, false, false⟩

/-- Mutable state of the auto-shutdown monitor: the pending timer as the
pair (time armed, requested delay where `none` models `NaN`), the
`SHUTDOWN_TIMEOUT` value in milliseconds (`none` models `NaN`), the raw
value assigned to `AUTO_SHUTDOWN_ENABLED`, the `IS_CI` suppression flag, and
the number of `process.exit` calls performed. -/
structure MonState where
  shutdownTimer : Option (ℚ × Option ℚ)
  shutdownTimeoutMs : Option ℚ
  autoShutdownEnabled : JsValue
  isCI : Bool
  exitCount : ℕ

/-- Source `resetShutdownTimer()` at current time `now`: clear any pending
timer (`clearTimeout`); unless auto-shutdown is disabled (falsy) or
`IS_CI`, arm a fresh `setTimeout` with delay `SHUTDOWN_TIMEOUT`. -/
def resetShutdownTimer (now : ℚ) (s : MonState) : MonState :=
  if truthy s.autoShutdownEnabled = false ∨ s.isCI then
    { s with shutdownTimer := none }
  else
    { s with shutdownTimer := some (now, s.shutdownTimeoutMs) }

/-- Effective delay of a pending timer: Node coerces a `NaN` (or otherwise
out-of-range) delay to 1 ms. -/
def requestedDelay : Option ℚ → ℚ
  | some q => q
  | none => 1

/-- Expiry of the pending timer: once strictly more than the armed delay has
elapsed with the timer still pending, its callback runs and the process
exits.  After an exit nothing further executes. -/
def fireTimerIfDue (now : ℚ) (s : MonState) : MonState :=
  if s.exitCount ≠ 0 then s
  else
    match s.shutdownTimer with
    | some td =>
        if td.1 + requestedDelay td.2 < now then
          { s with shutdownTimer := none, exitCount := s.exitCount + 1 }
        else s
    | none => s

/-- Handler of `app.post('/api/heartbeat')` at time `t`: if the pending
countdown already expired strictly before `t`, the event loop runs the exit
callback first; otherwise the handler calls `resetShutdownTimer`. -/
def onHeartbeat (t : ℚ) (s : MonState) : MonState :=
  let s1 := fireTimerIfDue t s
  if s1.exitCount ≠ 0 then s1 else resetShutdownTimer t s1

/-- A submission-ordered sequence of heartbeat requests. -/
def runHeartbeats (s : MonState) (ts : List ℚ) : MonState :=
  ts.foldl (fun a t => onHeartbeat t a) s

/-- Hexadecimal digit test for `parseInt`'s `0x` prefix. -/
def isHexDigitChar (c : Char) : Bool :=
  c.isDigit || ('a' ≤ c && c ≤ 'f') || ('A' ≤ c && c ≤ 'F')

/-- Value of a hexadecimal digit character. -/
def hexDigitVal (c : Char) : ℕ :=
  if c.isDigit then c.toNat - 48
  else if 'a' ≤ c ∧ c ≤ 'f' then c.toNat - 87
  else c.toNat - 55

/-- JS `parseInt(str)` with no radix: skip leading whitespace, optional
sign, a `0x`/`0X` hexadecimal prefix or the longest decimal digit prefix;
`NaN` (`none`) when no digits are found. -/
def parseIntStr (str : String) : Option ℤ :=
  let cs := str.data.dropWhile Char.isWhitespace
  let signed : Bool × List Char :=
    match cs with
    | '-' :: t => (true, t)
    | '+' :: t => (false, t)
    | _ => (false, cs)
  let neg := signed.1
  let rest := signed.2
  match rest with
  | '0' :: x :: t =>
      if x = 'x' ∨ x = 'X' then
        let ds := t.takeWhile isHexDigitChar
        if ds.isEmpty then none
        else some ((if neg then -1 else 1) *
          ((ds.foldl (fun a c => a * 16 + hexDigitVal c) 0 : ℕ) : ℤ))
      else
        some ((if neg then -1 else 1) * (digitsToNat (rest.takeWhile Char.isDigit) : ℤ))
  | _ =>
      let ds := rest.takeWhile Char.isDigit
      if ds.isEmpty then none
      else some ((if neg then -1 else 1) * (digitsToNat ds : ℤ))

/-- JS `parseInt(value)`: the argument is converted with `String` first
(scientific-notation rendering of huge magnitudes is outside the model). -/
def jsParseInt (v : JsValue) : Option ℤ :=
  parseIntStr (jsToString v)

/-- Serialization of a possibly-`NaN` number into a JSON response:
`JSON.stringify` renders `NaN` as `null`. -/
def jsonNum : Option ℚ → JsValue
  | none => .null
  | some q => .num q

/-- The `if (timeout !== undefined) SHUTDOWN_TIMEOUT = parseInt(timeout) *
1000` step of the system-settings handler (`NaN` propagates through the
multiplication). -/
def applySettingsTimeout (s : MonState) (body : JsValue) : MonState :=
  match body.getProp "timeout" with
  | .undefined => s
  | tv => { s with shutdownTimeoutMs := (jsParseInt tv).map (fun z => (z : ℚ) * 1000) }

/-- The `if (enabled !== undefined) AUTO_SHUTDOWN_ENABLED = enabled` step:
the request value is stored verbatim. -/
def applySettingsEnabled (s : MonState) (body : JsValue) : MonState :=
  match body.getProp "enabled" with
  | .undefined => s
  | ev => { s with autoShutdownEnabled := ev }

/-- The serialized `{success: true, timeout: SHUTDOWN_TIMEOUT / 1000,
enabled: AUTO_SHUTDOWN_ENABLED}` response. -/
def settingsResponse (s3 : MonState) : MonState × JsValue :=
  (s3, .obj [("success", .bool true),
             ("timeout", jsonNum (s3.shutdownTimeoutMs.map (fun q => q / 1000))),
             ("enabled", s3.autoShutdownEnabled)])

/-- Handler of `app.post('/api/settings/system')` at time `t`: if `timeout`
is present, store `parseInt(timeout) * 1000` (NaN-propagating); if `enabled`
is present, store it verbatim; re-arm via `resetShutdownTimer`; respond
`{success: true, timeout: SHUTDOWN_TIMEOUT / 1000, enabled:
AUTO_SHUTDOWN_ENABLED}` as serialized JSON. -/
def apiPostSystemSettings (t : ℚ) (s : MonState) (body : JsValue) :
    MonState × JsValue :=
  settingsResponse (resetShutdownTimer t (applySettingsEnabled (applySettingsTimeout s body) body))

/-- JSON mapping (plain object) test, distinguishing the spec's "mapping"
container type from sequences. -/
def isMappingJs : JsValue → Bool
  | .obj _ => true
  | _ => false

/-- JSON number test (a serialized `NaN` is `null`, not a number). -/
def isNumberJs : JsValue → Bool
  | .num _ => true
  | _ => false

/-- The `ALLOWED_STORES.has(storeName)` test on an arbitrary request value:
only one of the five store-name strings passes. -/
def allowedStoreVal : JsValue → Bool
  | .str s => decide (s ∈ ALLOWED_STORES)
  | _ => false

/-- A chain of heartbeat times starting after `t0` in which each heartbeat
arrives within `T` of the previous one. -/
def gapsOk (T : ℚ) : ℚ → List ℚ → Bool
  | _, [] => true
  | t0, t :: rest => decide (t0 ≤ t) && decide (t ≤ t0 + T) && gapsOk T t rest

/-- The prefix of enqueued writes that actually execute: everything up to
and including the first write whose `writeFile` fails. -/
def upToFirstFailure : List WriteReq → List WriteReq
  | [] => []
  | w :: rest => if w.succeeds then w :: upToFirstFailure rest else [w]

theorem getField_setField_self (fs : List (String × JsValue)) (k : String) (v : JsValue) :
    getField (setField fs k v) k = v := by
  induction fs with
  | nil => simp [setField, getField]
  | cons p rest ih =>
      obtain ⟨k', v'⟩ := p
      by_cases h : k' = k
      · simp [setField, getField, h]
      · simp [setField, getField, h, ih]

theorem getField_setField_ne (fs : List (String × JsValue)) (k k' : String) (v : JsValue)
    (h : k' ≠ k) : getField (setField fs k v) k' = getField fs k' := by
  have hne : ∀ k0, k0 = k → ¬k0 = k' := by
    intro k0 hk
    subst hk
    exact fun hh => h hh.symm
  induction fs with
  | nil =>
      show getField [(k, v)] k' = getField [] k'
      simp only [getField]
      exact if_neg (hne k rfl)
  | cons p rest ih =>
      obtain ⟨k0, v0⟩ := p
      by_cases h0 : k0 = k
      · subst h0
        simp [setField, getField, hne k0 rfl]
      · simp [setField, getField, h0, ih]

theorem setField_setField (fs : List (String × JsValue)) (k : String) (v w : JsValue) :
    setField (setField fs k v) k w = setField fs k w := by
  induction fs with
  | nil => simp [setField]
  | cons p rest ih =>
      obtain ⟨k0, v0⟩ := p
      by_cases h0 : k0 = k
      · simp [setField, h0]
      · simp [setField, h0, ih]

theorem isJsonFields_setField (fs : List (String × JsValue)) (k : String) (v : JsValue)
    (hfs : isJsonFields fs = true) (hv : isJsonValue v = true) :
    isJsonFields (setField fs k v) = true := by
  induction fs with
  | nil => simp [setField, isJsonFields, hv]
  | cons p rest ih =>
      obtain ⟨k0, v0⟩ := p
      simp only [isJsonFields, Bool.and_eq_true] at hfs
      by_cases h0 : k0 = k
      · simp [setField, h0, isJsonFields, hv, hfs.2]
      · simp [setField, h0, isJsonFields, hfs.1, ih hfs.2]

theorem isJson_getField (fs : List (String × JsValue)) (k : String)
    (hfs : isJsonFields fs = true) :
    isJsonValue (getField fs k) = true ∨ getField fs k = .undefined := by
  induction fs with
  | nil => right; rfl
  | cons p rest ih =>
      obtain ⟨k0, v0⟩ := p
      simp only [isJsonFields, Bool.and_eq_true] at hfs
      by_cases h0 : k0 = k
      · left; simpa [getField, h0] using hfs.1
      · simpa [getField, h0] using ih hfs.2

mutual

theorem stringifyNorm_eq_self : ∀ (v : JsValue), isJsonValue v = true → stringifyNorm v = v
  | .null, _ => rfl
  | .undefined, h => by simp [isJsonValue] at h
  | .bool _, _ => rfl
  | .num _, _ => rfl
  | .str _, _ => rfl
  | .arr xs, h => by
      have hx := stringifyNormList_eq_self xs (by simpa [isJsonValue] using h)
      simp [stringifyNorm, hx]
  | .obj fields, h => by
      have hx := stringifyNormFields_eq_self fields (by simpa [isJsonValue] using h)
      simp [stringifyNorm, hx]

theorem stringifyNormList_eq_self : ∀ (l : List JsValue), isJsonList l = true →
    stringifyNormList l = l
  | [], _ => rfl
  | v :: rest, h => by
      simp only [isJsonList, Bool.and_eq_true] at h
      have h1 := stringifyNorm_eq_self v h.1
      have h2 := stringifyNormList_eq_self rest h.2
      simp [stringifyNormList, h1, h2]

theorem stringifyNormFields_eq_self : ∀ (l : List (String × JsValue)),
    isJsonFields l = true → stringifyNormFields l = l
  | [], _ => rfl
  | (k, v) :: rest, h => by
      simp only [isJsonFields, Bool.and_eq_true] at h
      have h2 := stringifyNormFields_eq_self rest h.2
      cases v with
      | undefined => simp [isJsonValue] at h
      | null => simp [stringifyNormFields, stringifyNorm, h2]
      | bool b => simp [stringifyNormFields, stringifyNorm, h2]
      | num q => simp [stringifyNormFields, stringifyNorm, h2]
      | str s => simp [stringifyNormFields, stringifyNorm, h2]
      | arr xs => simpa [stringifyNormFields, h2] using stringifyNorm_eq_self (.arr xs) h.1
      | obj fs => simpa [stringifyNormFields, h2] using stringifyNorm_eq_self (.obj fs) h.1

end

theorem sanitizeNumber_bounds (v : JsValue) (lo hi : ℚ) (h : lo ≤ hi) :
    lo ≤ sanitizeNumber v lo hi ∧ sanitizeNumber v lo hi ≤ hi := by
  unfold sanitizeNumber
  cases jsParseFloat v with
  | nan => exact ⟨le_refl lo, h⟩
  | inf pos =>
      cases pos with
      | true => exact ⟨le_max_left lo hi, max_le h (le_refl hi)⟩
      | false => exact ⟨le_refl lo, h⟩
  | fin q => exact ⟨le_max_left _ _, max_le h (min_le_left _ _)⟩

theorem splitAtGt_none_not_mem (l : List Char) (h : splitAtGt l = none) : '>' ∉ l := by
  induction l with
  | nil => simp
  | cons c rest ih =>
      simp only [splitAtGt] at h
      by_cases hc : c = '>'
      · rw [if_pos hc] at h
        cases h
      · rw [if_neg hc] at h
        have hr : splitAtGt rest = none := by
          cases hh : splitAtGt rest with
          | none => rfl
          | some p =>
              obtain ⟨r, hrr⟩ := p
              rw [hh] at h
              cases h
        simp only [List.mem_cons, not_or]
        exact ⟨fun hh => hc hh.symm, ih hr⟩

theorem hasTag_stripOut_aux : ∀ (n : ℕ) (l : List Char), l.length ≤ n →
    hasTag (stripOut l) = false := by
  intro n
  induction n with
  | zero =>
      intro l hl
      have : l = [] := List.length_eq_zero.mp (Nat.le_zero.mp hl)
      subst this
      simp [stripOut, hasTag]
  | succ n ih =>
      intro l hl
      match l with
      | [] => simp [stripOut, hasTag]
      | c :: rest =>
          rw [List.length_cons] at hl
          by_cases hc : c = '<'
          · simp only [stripOut, if_pos hc]
            cases hh : splitAtGt rest with
            | some after =>
                simp only [hh]
                exact ih after.1 (by have := after.2; omega)
            | none =>
                simp only [hh]
                have hmem := splitAtGt_none_not_mem rest hh
                simp [hasTag, hc, hmem]
          · simp only [stripOut, if_neg hc]
            simp only [hasTag, if_neg hc]
            exact ih rest (by omega)

theorem hasTag_stripOut (l : List Char) : hasTag (stripOut l) = false :=
  hasTag_stripOut_aux l.length l (le_refl _)

theorem hasTag_take (l : List Char) (n : ℕ) (h : hasTag l = false) :
    hasTag (l.take n) = false := by
  induction l generalizing n with
  | nil => simp [List.take_nil, h]
  | cons c rest ih =>
      cases n with
      | zero => rfl
      | succ n =>
          simp only [List.take_succ_cons]
          by_cases hc : c = '<'
          · simp only [hasTag, if_pos hc] at h ⊢
            simp only [decide_eq_false_iff_not] at h ⊢
            intro hmem
            exact h (List.mem_of_mem_take hmem)
          · simp only [hasTag, if_neg hc] at h ⊢
            exact ih n h

theorem sanitizeString_length (v : JsValue) (n : ℕ) : (sanitizeString v n).length ≤ n := by
  unfold sanitizeString
  by_cases h : truthy v = false
  · simp [h]
  · simp only [h, if_false]
    show (List.take n _).length ≤ n
    exact List.length_take_le n _

theorem sanitizeString_noTag (v : JsValue) (n : ℕ) :
    hasTag (sanitizeString v n).data = false := by
  unfold sanitizeString
  by_cases h : truthy v = false
  · simp [h]
    rfl
  · simp only [h, if_false]
    exact hasTag_take _ n (hasTag_stripOut _)

theorem dataOf_getProp (input : JsValue) (k : String)
    (h : input.getProp k ≠ .undefined) :
    (dataOf input).getProp k = input.getProp k := by
  cases input <;> first
    | exact absurd rfl h
    | rfl

theorem isNonObject_objOrEmpty (v : JsValue) : isNonObject (objOrEmpty v) = false := by
  unfold objOrEmpty
  by_cases h : isNonObject v = true
  · rw [if_pos h]
    rfl
  · rw [if_neg h]
    exact Bool.not_eq_true _ ▸ Bool.of_not_eq_true h

/-- C4 counterexample: the claim says the normalized `id` is a non-negative
integer, but `sanitizeNumber` uses `parseFloat`, which passes fractional
values through, so `normalizeAccount({id: 5.5})` yields the non-integer id
`5.5`. -/
theorem normalizeAccount_id_not_integer :
    (∃ a, normalizeAccount (.obj [("id", .num (11 / 2))]) = some a ∧
       a.getProp "id" = .num (11 / 2)) ∧ (∀ n : ℤ, (11 / 2 : ℚ) ≠ (n : ℚ)) := by
  constructor
  · refine ⟨_, rfl, ?_⟩
    show JsValue.num (sanitizeNumber (.num (11 / 2)) 0 maxSafeInteger) = .num (11 / 2)
    have h : sanitizeNumber (.num (11 / 2)) 0 maxSafeInteger = 11 / 2 := by
      show Max.max 0 (Min.min maxSafeInteger (11 / 2)) = 11 / 2
      rw [min_eq_right (by norm_num [maxSafeInteger]), max_eq_right (by norm_num)]
    rw [h]
  · intro n hn
    have h2 : (11 : ℚ) = 2 * (n : ℚ) := by
      rw [← hn]
      norm_num
    have h3 : (11 : ℤ) = 2 * n := by exact_mod_cast h2
    omega

/-- C4 (amended): `normalizeAccount(raw)` returns `null` exactly when `raw`
is not an object (in the JS `typeof` sense), never throws (it is a total
function), and otherwise returns an account whose `id` is a non-negative
number clamped to `[0, Number.MAX_SAFE_INTEGER]` (not necessarily an
integer), whose `name` and `category` are HTML-stripped strings of at most
100 characters, whose `monthlyPayment` and `annualPayment` are numbers
clamped to `[0, 1e9]`, and which carries the defaults `type="expense"`,
`hasReminder="No"`, `status="Active"`, `priority="Important"`,
`ownerId=null` when those fields are missing or empty. -/
theorem normalizeAccount_canonical (raw : JsValue) :
    (normalizeAccount raw = none ↔ isNonObject raw = true) ∧
    (∀ a, normalizeAccount raw = some a →
      (∃ i : ℚ, a.getProp "id" = .num i ∧ 0 ≤ i ∧ i ≤ maxSafeInteger) ∧
      (∃ nm : String, a.getProp "name" = .str nm ∧ nm.length ≤ 100 ∧
         hasTag nm.data = false) ∧
      (∃ ct : String, a.getProp "category" = .str ct ∧ ct.length ≤ 100 ∧
         hasTag ct.data = false) ∧
      (∃ m : ℚ, a.getProp "monthlyPayment" = .num m ∧ 0 ≤ m ∧ m ≤ 1000000000) ∧
      (∃ an : ℚ, a.getProp "annualPayment" = .num an ∧ 0 ≤ an ∧ an ≤ 1000000000) ∧
      ((raw.getProp "type" = .undefined ∨ raw.getProp "type" = .str "") →
         a.getProp "type" = .str "expense") ∧
      ((raw.getProp "hasReminder" = .undefined ∨ raw.getProp "hasReminder" = .str "") →
         a.getProp "hasReminder" = .str "No") ∧
      ((raw.getProp "status" = .undefined ∨ raw.getProp "status" = .str "") →
         a.getProp "status" = .str "Active") ∧
      ((raw.getProp "priority" = .undefined ∨ raw.getProp "priority" = .str "") →
         a.getProp "priority" = .str "Important") ∧
      ((raw.getProp "ownerId" = .undefined ∨ raw.getProp "ownerId" = .str "") →
         a.getProp "ownerId" = .null)) := by
  unfold normalizeAccount
  by_cases h : isNonObject raw = true
  · rw [if_pos h]
    refine ⟨by simp [h], ?_⟩
    intro a ha
    cases ha
  · rw [if_neg h]
    refine ⟨by simp [h], ?_⟩
    intro a ha
    cases ha
    have hb1 := sanitizeNumber_bounds (raw.getProp "id") 0 maxSafeInteger
      (by norm_num [maxSafeInteger])
    have hb2 := sanitizeNumber_bounds (raw.getProp "monthlyPayment") 0 1000000000 (by norm_num)
    have hb3 := sanitizeNumber_bounds (raw.getProp "annualPayment") 0 1000000000 (by norm_num)
    refine ⟨⟨sanitizeNumber (raw.getProp "id") 0 maxSafeInteger,
              by simp [JsValue.getProp, getField], hb1.1, hb1.2⟩,
            ⟨sanitizeString (raw.getProp "name") 100,
              by simp [JsValue.getProp, getField], sanitizeString_length _ _,
              sanitizeString_noTag _ _⟩,
            ⟨sanitizeString (raw.getProp "category") 100,
              by simp [JsValue.getProp, getField], sanitizeString_length _ _,
              sanitizeString_noTag _ _⟩,
            ⟨sanitizeNumber (raw.getProp "monthlyPayment") 0 1000000000,
              by simp [JsValue.getProp, getField], hb2.1, hb2.2⟩,
            ⟨sanitizeNumber (raw.getProp "annualPayment") 0 1000000000,
              by simp [JsValue.getProp, getField], hb3.1, hb3.2⟩,
            ?_, ?_, ?_, ?_, ?_⟩ <;>
    · intro hd
      simp only [JsValue.getProp] at hd
      rcases hd with hd | hd <;>
        simp [JsValue.getProp, getField, hd, sanitizeString, truthy, strOrDefault]

/-- C4 witness: the amended theorem applied at concrete inputs, discharging
the object test and a missing-field default. -/
theorem normalizeAccount_canonical_witness :
    (isNonObject (JsValue.str "x") = true ∧ normalizeAccount (.str "x") = none) ∧
    (∃ a, normalizeAccount (.obj [("name", .str "Rent")]) = some a ∧
       a.getProp "status" = .str "Active") := by
  refine ⟨⟨rfl, (normalizeAccount_canonical (.str "x")).1.mpr rfl⟩, ?_⟩
  obtain ⟨-, h2⟩ := normalizeAccount_canonical (.obj [("name", .str "Rent")])
  have h := h2 _ rfl
  exact ⟨_, rfl, h.2.2.2.2.2.2.2.1 (Or.inl rfl)⟩

/-- C5 counterexample: the claim says `profile`, `timeline` and `settings`
come out as mappings, but the source test `typeof x === "object"` also
accepts arrays, so `normalizeData({profile: []})` keeps `profile` as a
sequence, not a mapping. -/
theorem normalizeData_profile_not_mapping :
    (normalizeData (.obj [("profile", .arr [])])).getProp "profile" = .arr [] ∧
    isMappingJs ((normalizeData (.obj [("profile", .arr [])])).getProp "profile") = false := by
  exact ⟨rfl, rfl⟩

/-- C5 (amended): for every input, `normalizeData` returns a document with
all five stores present, `accounts` and `goals` as sequences, and `profile`,
`timeline`, `settings` as object-typed values (a mapping, or — if the input
supplied one — an array, which passes the `typeof` check), synthesizing
empty defaults rather than failing; every element of `accounts` is
individually normalized with non-object elements dropped; and
`normalizeData({accounts: []})` yields empty containers for the other four
stores. -/
theorem normalizeData_invariant (input : JsValue) :
    (∃ acc prof tl gl st,
       normalizeData input = .obj [("accounts", .arr acc), ("profile", prof),
         ("timeline", tl), ("goals", .arr gl), ("settings", st)] ∧
       isNonObject prof = false ∧ isNonObject tl = false ∧ isNonObject st = false ∧
       (∀ x ∈ acc, ∃ y, normalizeAccount y = some x) ∧
       (∀ xs, input.getProp "accounts" = .arr xs → acc = xs.filterMap normalizeAccount)) ∧
    normalizeData (.obj [("accounts", .arr [])]) =
      .obj [("accounts", .arr []), ("profile", .obj []), ("timeline", .obj []),
            ("goals", .arr []), ("settings", .obj [])] := by
  constructor
  · have hAcc : ∃ acc,
        (match (dataOf input).getProp "accounts" with
         | JsValue.arr xs => JsValue.arr (xs.filterMap normalizeAccount)
         | _ => JsValue.arr []) = .arr acc ∧
        (∀ x ∈ acc, ∃ y, normalizeAccount y = some x) ∧
        (∀ xs, input.getProp "accounts" = .arr xs → acc = xs.filterMap normalizeAccount) := by
      cases hacc : (dataOf input).getProp "accounts" with
      | arr ys =>
          refine ⟨ys.filterMap normalizeAccount, rfl, ?_, ?_⟩
          · intro x hx
            obtain ⟨y, -, hy⟩ := List.mem_filterMap.mp hx
            exact ⟨y, hy⟩
          · intro xs hxs
            rw [dataOf_getProp input _ (by rw [hxs]; simp), hxs] at hacc
            cases hacc
            rfl
      | null =>
          refine ⟨[], rfl, by simp, ?_⟩
          intro xs hxs
          rw [dataOf_getProp input _ (by rw [hxs]; simp), hxs] at hacc
          cases hacc
      | undefined =>
          refine ⟨[], rfl, by simp, ?_⟩
          intro xs hxs
          by_cases hin : input.getProp "accounts" = .undefined
          · rw [hxs] at hin
            cases hin
          · rw [dataOf_getProp input _ hin, hxs] at hacc
            cases hacc
      | bool b =>
          refine ⟨[], rfl, by simp, ?_⟩
          intro xs hxs
          rw [dataOf_getProp input _ (by rw [hxs]; simp), hxs] at hacc
          cases hacc
      | num q =>
          refine ⟨[], rfl, by simp, ?_⟩
          intro xs hxs
          rw [dataOf_getProp input _ (by rw [hxs]; simp), hxs] at hacc
          cases hacc
      | str s =>
          refine ⟨[], rfl, by simp, ?_⟩
          intro xs hxs
          rw [dataOf_getProp input _ (by rw [hxs]; simp), hxs] at hacc
          cases hacc
      | obj fsx =>
          refine ⟨[], rfl, by simp, ?_⟩
          intro xs hxs
          rw [dataOf_getProp input _ (by rw [hxs]; simp), hxs] at hacc
          cases hacc
    have hGl : ∃ gl,
        (match (dataOf input).getProp "goals" with
         | JsValue.arr xs => JsValue.arr xs
         | _ => JsValue.arr []) = JsValue.arr gl := by
      cases (dataOf input).getProp "goals" <;> exact ⟨_, rfl⟩
    obtain ⟨acc, ha1, ha2, ha3⟩ := hAcc
    obtain ⟨gl, hg1⟩ := hGl
    refine ⟨acc, objOrEmpty ((dataOf input).getProp "profile"),
            objOrEmpty ((dataOf input).getProp "timeline"), gl,
            objOrEmpty ((dataOf input).getProp "settings"), ?_,
            isNonObject_objOrEmpty _, isNonObject_objOrEmpty _,
            isNonObject_objOrEmpty _, ha2, ha3⟩
    unfold normalizeData
    rw [ha1, hg1]
  · rfl

/-- C5 witness: the amended theorem applied at a concrete input whose
`accounts` section contains a non-object element, which is dropped. -/
theorem normalizeData_invariant_witness :
    (normalizeData (.obj [("accounts", .arr [.str "x"])])).getProp "accounts" = .arr [] := by
  obtain ⟨⟨acc, prof, tl, gl, st, h1, -, -, -, -, h3⟩, -⟩ :=
    normalizeData_invariant (.obj [("accounts", .arr [.str "x"])])
  have hacc : acc = [JsValue.str "x"].filterMap normalizeAccount := h3 _ rfl
  rw [h1, hacc]
  rfl

/-- C2 counterexample: a load served from the backup is not normalized.
With a corrupt primary and a backup parsing to `{}`, the request succeeds
(status 200) but the response body is `{}` — it is missing the `accounts`
store that `normalizeData` of the same content would contain, so the
response is not the normalized form of the served content. -/
theorem loadDocument_backup_not_normalized :
    (apiGetData ⟨some .invalid, some (.valid (.obj []))⟩).status = 200 ∧
    (apiGetData ⟨some .invalid, some (.valid (.obj []))⟩).body = .obj [] ∧
    (apiGetData ⟨some .invalid, some (.valid (.obj []))⟩).body.getProp "accounts" =
      .undefined ∧
    (normalizeData (.obj [])).getProp "accounts" = .arr [] :=
  ⟨rfl, rfl, rfl, rfl⟩

/-- C2 (amended): a successful load served from the primary file returns
`normalizeData` of its parsed on-disk content; a load served from the
backup after a primary read or parse failure also succeeds, but returns the
backup's parsed content without normalization (it need not contain all five
stores). -/
theorem loadDocument_normalization (fs : Fs) :
    (∀ v, fs.dataFile = some (.valid v) → apiGetData fs = ⟨200, normalizeData v, fs⟩) ∧
    (∀ w, (fs.dataFile = some .invalid ∨ fs.dataFile = none) →
       fs.backupFile = some (.valid w) →
       (apiGetData fs).status = 200 ∧ (apiGetData fs).body = w) := by
  constructor
  · intro v hv
    unfold apiGetData
    rw [hv]
  · intro w hdf hb
    rcases hdf with hdf | hdf <;>
    · unfold apiGetData
      rw [hdf, hb]
      exact ⟨rfl, rfl⟩

/-- C2 witness: the amended theorem applied to a concrete healthy file
system. -/
theorem loadDocument_normalization_witness :
    apiGetData ⟨some (.valid (.obj [])), none⟩ =
      ⟨200, normalizeData (.obj []), ⟨some (.valid (.obj [])), none⟩⟩ :=
  (loadDocument_normalization ⟨some (.valid (.obj [])), none⟩).1 (.obj []) rfl

/-- C3 (confirmed): when the primary file fails to parse, a load with an
existing, parseable backup succeeds, returns the backup's parsed content,
and overwrites the primary with the backup bytes (repairing it to match);
when the backup is missing or also fails to parse, the request fails with a
500 response carrying an error message and a details diagnostic, and no
further recovery is attempted (the file system is untouched). -/
theorem backupRecovery (fs : Fs) (h : fs.dataFile = some .invalid) :
    (∀ w, fs.backupFile = some (.valid w) →
       apiGetData fs = ⟨200, w, { fs with dataFile := some (.valid w) }⟩) ∧
    (fs.backupFile = some .invalid →
       apiGetData fs =
         ⟨500, errorBody "Data corrupted and backup restoration failed" parseErrDetails, fs⟩) ∧
    (fs.backupFile = none →
       apiGetData fs =
         ⟨500, errorBody "Data corrupted and no backup available" parseErrDetails, fs⟩) := by
  refine ⟨fun w hb => ?_, fun hb => ?_, fun hb => ?_⟩ <;>
  · unfold apiGetData
    rw [h, hb]

/-- C3 witness: the theorem applied to a concrete corrupt-primary file
system with a valid backup; the primary is repaired in the result. -/
theorem backupRecovery_witness :
    apiGetData ⟨some .invalid, some (.valid (.arr []))⟩ =
      ⟨200, .arr [], ⟨some (.valid (.arr [])), some (.valid (.arr []))⟩⟩ :=
  (backupRecovery ⟨some .invalid, some (.valid (.arr []))⟩ rfl).1 (.arr []) rfl

/-- C6 (confirmed): a save request whose `storeName` is missing, falsy, or
not one of the five recognized names is rejected with a 400 before any file
I/O (no read, no write), leaving the file system unchanged. -/
theorem unknownStore_rejected (fs : Fs) (body : JsValue)
    (h : allowedStoreVal (body.getProp "storeName") = false) :
    (apiPostData fs body).status = 400 ∧ (apiPostData fs body).fs = fs ∧
    (apiPostData fs body).didRead = false ∧ (apiPostData fs body).didWrite = false := by
  unfold apiPostData
  by_cases ht : truthy (body.getProp "storeName") = false
  · rw [if_pos ht]
    exact ⟨rfl, rfl, rfl, rfl⟩
  · rw [if_neg ht]
    cases hsn : body.getProp "storeName" with
    | str s =>
        rw [hsn] at h
        have hmem : ¬s ∈ ALLOWED_STORES := by
          intro hc
          rw [allowedStoreVal, decide_eq_true hc] at h
          cases h
        simp [if_neg hmem]
    | null => exact ⟨rfl, rfl, rfl, rfl⟩
    | undefined => exact ⟨rfl, rfl, rfl, rfl⟩
    | bool b => exact ⟨rfl, rfl, rfl, rfl⟩
    | num q => exact ⟨rfl, rfl, rfl, rfl⟩
    | arr xs => exact ⟨rfl, rfl, rfl, rfl⟩
    | obj fsx => exact ⟨rfl, rfl, rfl, rfl⟩

theorem runWriteQueue_rejected (ws : List WriteReq) :
    ∀ s : ChainState, s.chainRejected = true → runWriteQueue s ws = s := by
  induction ws with
  | nil => intro s _; rfl
  | cons w rest ih =>
      intro s h
      have hs : stepWrite s w = s := by
        unfold stepWrite
        rw [if_pos h]
      show runWriteQueue (stepWrite s w) rest = s
      rw [hs]
      exact ih s h

theorem runWriteQueue_executed (ws : List WriteReq) :
    ∀ s : ChainState, s.chainRejected = false →
      (runWriteQueue s ws).executed =
        s.executed ++ (upToFirstFailure ws).map WriteReq.payload := by
  induction ws with
  | nil => intro s _; simp [runWriteQueue, upToFirstFailure]
  | cons w rest ih =>
      intro s h
      show (runWriteQueue (stepWrite s w) rest).executed = _
      by_cases hw : w.succeeds = true
      · have hs : stepWrite s w =
            ⟨.valid w.payload, false, s.executed ++ [w.payload]⟩ := by
          unfold stepWrite
          rw [if_neg (by rw [h]; simp), if_pos hw]
        rw [hs, ih _ rfl]
        simp [upToFirstFailure, hw]
      · have hs : stepWrite s w =
            { s with chainRejected := true, executed := s.executed ++ [w.payload] } := by
          unfold stepWrite
          rw [if_neg (by rw [h]; simp), if_neg hw]
        rw [hs, runWriteQueue_rejected rest _ rfl]
        simp [upToFirstFailure, hw]

theorem upToFirstFailure_all (ws : List WriteReq)
    (h : ∀ w ∈ ws, w.succeeds = true) : upToFirstFailure ws = ws := by
  induction ws with
  | nil => rfl
  | cons w rest ih =>
      rw [upToFirstFailure, if_pos (h w (by simp))]
      rw [ih (fun w' hw' => h w' (List.mem_cons_of_mem w hw'))]

theorem runWriteQueue_lastContents (ws : List WriteReq) :
    ∀ s : ChainState, s.chainRejected = false → (∀ w ∈ ws, w.succeeds = true) →
      ∀ w', ws.getLast? = some w' →
        (runWriteQueue s ws).fileContents = .valid w'.payload := by
  induction ws with
  | nil => intro s _ _ w' hlast; cases hlast
  | cons w rest ih =>
      intro s h hall w' hlast
      have hw : w.succeeds = true := hall w (by simp)
      have hs : stepWrite s w = ⟨.valid w.payload, false, s.executed ++ [w.payload]⟩ := by
        unfold stepWrite
        rw [if_neg (by rw [h]; simp), if_pos hw]
      show (runWriteQueue (stepWrite s w) rest).fileContents = _
      rw [hs]
      cases rest with
      | nil =>
          simp only [List.getLast?_singleton, Option.some.injEq] at hlast
          subst hlast
          rfl
      | cons r1 r2 =>
          have hlast2 : (r1 :: r2).getLast? = some w' := by
            rw [List.getLast?_cons_cons] at hlast
            exact hlast
          exact ih _ rfl (fun w2 hw2 => hall w2 (List.mem_cons_of_mem w hw2)) w' hlast2

/-- C1 counterexample: the chain is built with `.then` carrying only an
onFulfilled handler, so once a write's `writeFile` rejects, the queue
promise stays rejected and every later enqueued write is skipped.
Enqueuing A (whose write fails) and then B (which would succeed), B's write
never starts and the final document does not reflect B. -/
theorem writeQueue_skips_after_failure :
    (runWriteQueue ⟨.valid (.obj []), false, []⟩
       [⟨.str "A", false⟩, ⟨.str "B", true⟩]).executed = [.str "A"] ∧
    (runWriteQueue ⟨.valid (.obj []), false, []⟩
       [⟨.str "A", false⟩, ⟨.str "B", true⟩]).fileContents = .valid (.obj []) ∧
    (runWriteQueue ⟨.valid (.obj []), false, []⟩
       [⟨.str "A", false⟩, ⟨.str "B", true⟩]).chainRejected = true :=
  ⟨rfl, rfl, rfl⟩

/-- C1 (amended): writes enqueued on the serializer chain execute strictly
one at a time in submission order, but only up to and including the first
write whose `writeFile` fails: the writes that execute are exactly the
payloads of `upToFirstFailure`; when every enqueued write succeeds, all of
them execute in submission order and the final document is the last
submitted payload.  Writes enqueued after a failed write are skipped (the
rejected chain never runs them). -/
theorem writeQueue_serialized (ws : List WriteReq) :
    (∀ s : ChainState, s.chainRejected = false →
       (runWriteQueue s ws).executed =
         s.executed ++ (upToFirstFailure ws).map WriteReq.payload) ∧
    ((∀ w ∈ ws, w.succeeds = true) → upToFirstFailure ws = ws) ∧
    (∀ s : ChainState, s.chainRejected = false → (∀ w ∈ ws, w.succeeds = true) →
       ∀ w', ws.getLast? = some w' →
         (runWriteQueue s ws).fileContents = .valid w'.payload) ∧
    (∀ s : ChainState, s.chainRejected = true → runWriteQueue s ws = s) :=
  ⟨runWriteQueue_executed ws, upToFirstFailure_all ws,
   runWriteQueue_lastContents ws, runWriteQueue_rejected ws⟩

/-- C1 witness: two successful writes A then B execute in order and the
final contents are B's payload. -/
theorem writeQueue_serialized_witness :
    (runWriteQueue ⟨.valid (.obj []), false, []⟩
       [⟨.str "A", true⟩, ⟨.str "B", true⟩]).fileContents = .valid (.str "B") ∧
    (runWriteQueue ⟨.valid (.obj []), false, []⟩
       [⟨.str "A", true⟩, ⟨.str "B", true⟩]).executed = [.str "A", .str "B"] := by
  have hall : ∀ w ∈ [(⟨.str "A", true⟩ : WriteReq), ⟨.str "B", true⟩], w.succeeds = true := by
    intro w hw
    simp only [List.mem_cons, List.not_mem_nil, or_false] at hw
    rcases hw with rfl | rfl <;> rfl
  refine ⟨(writeQueue_serialized _).2.2.1 _ rfl hall _ rfl, ?_⟩
  rw [(writeQueue_serialized _).1 _ rfl]
  rfl

theorem runHeartbeats_armed (T : ℚ) (e : JsValue) (he : truthy e = true)
    (ts : List ℚ) : ∀ t0, gapsOk T t0 ts = true →
    runHeartbeats ⟨some (t0, some T), some T, e, false, 0⟩ ts =
      ⟨some (ts.getLastD t0, some T), some T, e, false, 0⟩ := by
  induction ts with
  | nil => intro t0 _; rfl
  | cons t rest ih =>
      intro t0 hg
      simp only [gapsOk, Bool.and_eq_true, decide_eq_true_eq] at hg
      obtain ⟨⟨h1, h2⟩, h3⟩ := hg
      have hfire : fireTimerIfDue t ⟨some (t0, some T), some T, e, false, 0⟩ =
          ⟨some (t0, some T), some T, e, false, 0⟩ := by
        simp [fireTimerIfDue, requestedDelay, not_lt.mpr h2]
      have hstep : onHeartbeat t ⟨some (t0, some T), some T, e, false, 0⟩ =
          ⟨some (t, some T), some T, e, false, 0⟩ := by
        simp [onHeartbeat, hfire, resetShutdownTimer, he]
      show runHeartbeats (onHeartbeat t _) rest = _
      rw [hstep, List.getLastD_cons]
      exact ih t h3

theorem runHeartbeats_disabled (tm : Option ℚ) (e2 : JsValue) (ci : Bool)
    (he2 : truthy e2 = false) (ts : List ℚ) :
    runHeartbeats ⟨none, tm, e2, ci, 0⟩ ts = ⟨none, tm, e2, ci, 0⟩ := by
  induction ts with
  | nil => rfl
  | cons t rest ih =>
      have hstep : onHeartbeat t ⟨none, tm, e2, ci, 0⟩ = ⟨none, tm, e2, ci, 0⟩ := by
        simp [onHeartbeat, fireTimerIfDue, resetShutdownTimer, he2]
      show runHeartbeats (onHeartbeat t _) rest = _
      rw [hstep]
      exact ih

/-- C7 (confirmed): with auto-shutdown enabled (truthy) and not suppressed
(`IS_CI` false), every heartbeat within the pending delay cancels the
countdown and arms a fresh one of `timeoutMs`, so a chain of heartbeats
each within `timeoutMs` of the previous one never terminates the process
and leaves the countdown armed at the last heartbeat; once strictly more
than `timeoutMs` elapses after the countdown was last armed, the timer
fires and the process exits exactly once (`exitCount` becomes 1, and every
subsequent event is a no-op on a terminated process); with auto-shutdown
disabled (falsy), no countdown is ever armed and the monitor never
terminates the process. -/
theorem heartbeat_deadman (T t0 : ℚ) (e : JsValue) (he : truthy e = true) :
    (∀ ts, gapsOk T t0 ts = true →
       runHeartbeats ⟨some (t0, some T), some T, e, false, 0⟩ ts =
         ⟨some (ts.getLastD t0, some T), some T, e, false, 0⟩) ∧
    (∀ t, t0 + T < t →
       fireTimerIfDue t ⟨some (t0, some T), some T, e, false, 0⟩ =
         ⟨none, some T, e, false, 1⟩) ∧
    (∀ (s : MonState) (t : ℚ), s.exitCount ≠ 0 →
       onHeartbeat t s = s ∧ fireTimerIfDue t s = s) ∧
    (∀ (e2 : JsValue) (tm : Option ℚ) (ci : Bool) (ts : List ℚ), truthy e2 = false →
       runHeartbeats ⟨none, tm, e2, ci, 0⟩ ts = ⟨none, tm, e2, ci, 0⟩) := by
  refine ⟨fun ts => runHeartbeats_armed T e he ts t0, fun t ht => ?_, fun s t hs => ?_, ?_⟩
  · simp [fireTimerIfDue, requestedDelay, ht]
  · have hf : fireTimerIfDue t s = s := by
      unfold fireTimerIfDue
      rw [if_pos hs]
    refine ⟨?_, hf⟩
    unfold onHeartbeat
    rw [hf, if_pos hs]
  · intro e2 tm ci ts he2
    exact runHeartbeats_disabled tm e2 ci he2 ts

/-- C7 witness: with a 10-unit timeout armed at time 0, heartbeats at 5 and
12 keep the process alive and re-arm at 12; with no heartbeat, a check at
time 100 fires the shutdown exactly once. -/
theorem heartbeat_deadman_witness :
    runHeartbeats ⟨some (0, some 10), some 10, .bool true, false, 0⟩ [5, 12] =
      ⟨some (12, some 10), some 10, .bool true, false, 0⟩ ∧
    fireTimerIfDue 100 ⟨some (0, some 10), some 10, .bool true, false, 0⟩ =
      ⟨none, some 10, .bool true, false, 1⟩ := by
  obtain ⟨h1, h2, -, -⟩ := heartbeat_deadman 10 0 (.bool true) rfl
  refine ⟨?_, h2 100 (by norm_num)⟩
  have h := h1 [5, 12] (by norm_num [gapsOk])
  rw [h]
  rfl

/-- C6 witness: the theorem applied at a concrete unrecognized store name. -/
theorem unknownStore_rejected_witness :
    allowedStoreVal ((JsValue.obj [("storeName", .str "bogus")]).getProp "storeName") = false ∧
    (apiPostData ⟨some (.valid (.obj [])), none⟩
       (.obj [("storeName", .str "bogus")])).status = 400 :=
  ⟨rfl, (unknownStore_rejected ⟨some (.valid (.obj [])), none⟩
     (.obj [("storeName", .str "bogus")]) rfl).1⟩

theorem stringifyNorm_obj_eq (fields : List (String × JsValue))
    (h : isJsonFields fields = true) : stringifyNorm (.obj fields) = .obj fields :=
  stringifyNorm_eq_self _ (by simpa [isJsonValue] using h)

theorem isJson_normalizeAccount (y a : JsValue) (h : normalizeAccount y = some a) :
    isJsonValue a = true := by
  unfold normalizeAccount at h
  by_cases hn : isNonObject y = true
  · rw [if_pos hn] at h
    cases h
  · rw [if_neg hn] at h
    cases h
    by_cases ho : truthy (y.getProp "ownerId") = true <;>
      simp [isJsonValue, isJsonFields, ho]

theorem isJsonList_filterMapNormalize (xs : List JsValue) :
    isJsonList (xs.filterMap normalizeAccount) = true := by
  induction xs with
  | nil => rfl
  | cons y rest ih =>
      cases hy : normalizeAccount y with
      | none => simpa [List.filterMap_cons, hy] using ih
      | some a =>
          simp [List.filterMap_cons, hy, isJsonList, ih, isJson_normalizeAccount y a hy]

theorem apiPostData_ok (content : FileContent) (fields : List (String × JsValue))
    (bk : Option FileContent) (body : JsValue) (s : String) (newDb : JsValue)
    (hc : parsedOrEmpty content = .obj fields)
    (h1 : body.getProp "storeName" = .str s)
    (hs : s ∈ ALLOWED_STORES)
    (hok : applyStoreUpdate (.obj fields) s (body.getProp "data")
             (body.getProp "key") = .ok newDb) :
    apiPostData ⟨some content, bk⟩ body =
      ⟨200, .obj [("success", .bool true)],
       ⟨some (.valid (stringifyNorm newDb)), bk⟩, true, true⟩ := by
  have htr : ¬(truthy (.str s) = false) := by
    fin_cases hs <;> decide
  unfold apiPostData
  rw [h1, if_neg htr]
  simp only [hs, if_true, hc, hok]

theorem applyStoreUpdate_keyed (fields : List (String × JsValue)) (s : String)
    (d k : JsValue) (m : List (String × JsValue))
    (hsor : s = "profile" ∨ s = "timeline") (hk : truthy k = true)
    (hm : getField fields s = .obj m) :
    applyStoreUpdate (.obj fields) s d k =
      .ok (.obj (setField fields s (.obj (setField m (jsToString k) d)))) := by
  have ht : truthy (JsValue.obj m) = true := rfl
  rcases hsor with rfl | rfl <;>
    simp [applyStoreUpdate, hm, hk, jsSetProp, ht]

theorem applyStoreUpdate_keyed_missing (fields : List (String × JsValue)) (s : String)
    (d k : JsValue) (hsor : s = "profile" ∨ s = "timeline") (hk : truthy k = true)
    (hm : truthy (getField fields s) = false) :
    applyStoreUpdate (.obj fields) s d k =
      .ok (.obj (setField fields s (.obj [(jsToString k, d)]))) := by
  have ht : truthy (JsValue.obj []) = true := rfl
  rcases hsor with rfl | rfl <;>
  · simp [applyStoreUpdate, hm, hk, jsSetProp, getField_setField_self,
      setField_setField, ht]
    try rfl

theorem applyStoreUpdate_replace (fields : List (String × JsValue)) (s : String)
    (d k : JsValue)
    (hsor : s = "goals" ∨ s = "settings" ∨
      ((s = "profile" ∨ s = "timeline") ∧ truthy k = false)) :
    applyStoreUpdate (.obj fields) s d k = .ok (.obj (setField fields s d)) := by
  rcases hsor with hs | hs | ⟨hsor2, hk2⟩
  · subst hs
    by_cases hdb : truthy (getField fields "goals") = false <;>
      simp [applyStoreUpdate, hdb, setField_setField]
  · subst hs
    by_cases hdb : truthy (getField fields "settings") = false <;>
      simp [applyStoreUpdate, hdb, setField_setField]
  · rcases hsor2 with hs | hs
    · subst hs
      by_cases hdb : truthy (getField fields "profile") = false <;>
        simp [applyStoreUpdate, hdb, hk2, setField_setField]
    · subst hs
      by_cases hdb : truthy (getField fields "timeline") = false <;>
        simp [applyStoreUpdate, hdb, hk2, setField_setField]

theorem applyStoreUpdate_accounts (fields : List (String × JsValue)) (d k : JsValue) :
    applyStoreUpdate (.obj fields) "accounts" d k =
      .ok (.obj (setField fields "accounts" (accountsValue d))) := by
  by_cases hdb : truthy (getField fields "accounts") = false <;>
    simp [applyStoreUpdate, hdb, setField_setField]

/-- C8 counterexample: with a primary document that parses as the object
`{"profile": 5}` (a truthy primitive store value), a keyed profile save
responds success but the sloppy-mode property assignment on the primitive
is a silent no-op: the persisted document still holds `profile: 5` and the
submitted value is nowhere — the claimed merge does not happen even though
the document parsed as an object. -/
theorem keyedMerge_counterexample :
    (apiPostData ⟨some (.valid (.obj [("profile", .num 5)])), none⟩
       (.obj [("storeName", .str "profile"), ("data", .str "v"),
              ("key", .str "k")])).status = 200 ∧
    (apiPostData ⟨some (.valid (.obj [("profile", .num 5)])), none⟩
       (.obj [("storeName", .str "profile"), ("data", .str "v"),
              ("key", .str "k")])).fs.dataFile =
      some (.valid (.obj [("profile", .num 5)])) :=
  ⟨rfl, rfl⟩

/-- C8 (amended): for a save of `profile` or `timeline` with a truthy key,
given the primary document parses as an object and the store's current
value is a mapping (or missing/falsy, in which case an empty mapping is
initialized first), the write merges the submitted value at that key only:
every other key of that store and every other store is unchanged in the
persisted result; for `goals`/`settings` and keyless `profile`/`timeline`
saves the whole store value is replaced by the submitted data, and for
`accounts` it is replaced by the normalized submitted array.  (When the
store's current value is a truthy primitive, the merge is silently lost —
see the counterexample.) -/
theorem keyedMerge_frame (fields : List (String × JsValue)) (bk : Option FileContent)
    (body : JsValue) (s : String) (d k : JsValue)
    (h1 : body.getProp "storeName" = .str s)
    (h2 : body.getProp "data" = d) (h3 : body.getProp "key" = k)
    (hj : isJsonFields fields = true) (hjd : isJsonValue d = true) :
    (∀ m, (s = "profile" ∨ s = "timeline") → truthy k = true →
       getField fields s = .obj m →
       apiPostData ⟨some (.valid (.obj fields)), bk⟩ body =
         ⟨200, .obj [("success", .bool true)],
          ⟨some (.valid (.obj (setField fields s (.obj (setField m (jsToString k) d))))), bk⟩,
          true, true⟩) ∧
    ((s = "profile" ∨ s = "timeline") → truthy k = true →
       truthy (getField fields s) = false →
       apiPostData ⟨some (.valid (.obj fields)), bk⟩ body =
         ⟨200, .obj [("success", .bool true)],
          ⟨some (.valid (.obj (setField fields s (.obj [(jsToString k, d)])))), bk⟩,
          true, true⟩) ∧
    ((s = "goals" ∨ s = "settings" ∨ ((s = "profile" ∨ s = "timeline") ∧ truthy k = false)) →
       s ∈ ALLOWED_STORES →
       apiPostData ⟨some (.valid (.obj fields)), bk⟩ body =
         ⟨200, .obj [("success", .bool true)],
          ⟨some (.valid (.obj (setField fields s d))), bk⟩, true, true⟩) ∧
    (s = "accounts" →
       apiPostData ⟨some (.valid (.obj fields)), bk⟩ body =
         ⟨200, .obj [("success", .bool true)],
          ⟨some (.valid (.obj (setField fields s (accountsValue d)))), bk⟩, true, true⟩) ∧
    (∀ (v : JsValue) (f' : String), f' ≠ s →
       getField (setField fields s v) f' = getField fields f') ∧
    (∀ (m : List (String × JsValue)) (k' : String), k' ≠ jsToString k →
       getField (setField m (jsToString k) d) k' = getField m k') := by
  have hmem : ∀ x : String, x = "profile" ∨ x = "timeline" → x ∈ ALLOWED_STORES := by
    rintro x (rfl | rfl) <;> decide
  refine ⟨?_, ?_, ?_, ?_, ?_, ?_⟩
  · intro m hsor hk hm
    have hjm : isJsonFields m = true := by
      rcases isJson_getField fields s hj with hv | hv
      · rw [hm] at hv
        simpa [isJsonValue] using hv
      · rw [hm] at hv
        cases hv
    have hnorm : stringifyNorm (.obj (setField fields s
        (.obj (setField m (jsToString k) d)))) =
        .obj (setField fields s (.obj (setField m (jsToString k) d))) := by
      refine stringifyNorm_obj_eq _ (isJsonFields_setField _ _ _ hj ?_)
      simpa [isJsonValue] using isJsonFields_setField m (jsToString k) d hjm hjd
    have := apiPostData_ok (.valid (.obj fields)) fields bk body s _ rfl h1
      (hmem s hsor) (by rw [h2, h3]; exact applyStoreUpdate_keyed fields s d k m hsor hk hm)
    rw [this, hnorm]
  · intro hsor hk hm
    have hnorm : stringifyNorm (.obj (setField fields s (.obj [(jsToString k, d)]))) =
        .obj (setField fields s (.obj [(jsToString k, d)])) := by
      refine stringifyNorm_obj_eq _ (isJsonFields_setField _ _ _ hj ?_)
      simp [isJsonValue, isJsonFields, hjd]
    have := apiPostData_ok (.valid (.obj fields)) fields bk body s _ rfl h1
      (hmem s hsor)
      (by rw [h2, h3]; exact applyStoreUpdate_keyed_missing fields s d k hsor hk hm)
    rw [this, hnorm]
  · intro hsor hsmem
    have hnorm : stringifyNorm (.obj (setField fields s d)) = .obj (setField fields s d) :=
      stringifyNorm_obj_eq _ (isJsonFields_setField _ _ _ hj hjd)
    have := apiPostData_ok (.valid (.obj fields)) fields bk body s _ rfl h1 hsmem
      (by rw [h2, h3]; exact applyStoreUpdate_replace fields s d k hsor)
    rw [this, hnorm]
  · intro hsacc
    subst hsacc
    have hja : isJsonValue (accountsValue d) = true := by
      cases d <;>
        simp [accountsValue, isJsonValue, isJsonList, isJsonList_filterMapNormalize]
    have hnorm : stringifyNorm (.obj (setField fields "accounts" (accountsValue d))) =
        .obj (setField fields "accounts" (accountsValue d)) :=
      stringifyNorm_obj_eq _ (isJsonFields_setField _ _ _ hj hja)
    have := apiPostData_ok (.valid (.obj fields)) fields bk body "accounts" _ rfl h1
      (by decide) (by rw [h2, h3]; exact applyStoreUpdate_accounts fields d k)
    rw [this, hnorm]
  · intro v f' hf
    exact getField_setField_ne fields s f' v hf
  · intro m k' hk'
    exact getField_setField_ne m (jsToString k) k' d hk'

/-- C8 witness: a keyed profile merge at a concrete document — the key
`"cards"` is updated, the other profile key and the goals store are
untouched. -/
theorem keyedMerge_frame_witness :
    apiPostData ⟨some (.valid (.obj [("profile", .obj [("old", .num 1)]),
                                     ("goals", .arr [])])), none⟩
      (.obj [("storeName", .str "profile"), ("data", .str "v"), ("key", .str "cards")]) =
      ⟨200, .obj [("success", .bool true)],
       ⟨some (.valid (.obj [("profile", .obj [("old", .num 1), ("cards", .str "v")]),
                            ("goals", .arr [])])), none⟩, true, true⟩ := by
  have h := (keyedMerge_frame [("profile", .obj [("old", .num 1)]), ("goals", .arr [])]
    none (.obj [("storeName", .str "profile"), ("data", .str "v"), ("key", .str "cards")])
    "profile" (.str "v") (.str "cards") rfl rfl rfl rfl rfl).1
    [("old", .num 1)] (Or.inl rfl) rfl rfl
  rw [h]
  rfl

theorem isJson_accountsValue (d : JsValue) : isJsonValue (accountsValue d) = true := by
  cases d <;>
    simp [accountsValue, isJsonValue, isJsonList, isJsonList_filterMapNormalize]

theorem isJson_newStoreValue (s : String) (d k : JsValue)
    (hjd : isJsonValue d = true) : isJsonValue (newStoreValue s d k) = true := by
  unfold newStoreValue
  by_cases h1 : s = "accounts"
  · simp [h1, isJson_accountsValue]
  · rw [if_neg h1]
    by_cases h2 : (s = "profile" ∨ s = "timeline") ∧ truthy k = true
    · simp [h2, isJsonValue, isJsonFields, hjd]
    · simp [h2, hjd]

/-- C9 (confirmed): when the primary file exists but its content fails to
parse as JSON, a save-store request does not fail and does not consult the
backup (the result is the same for every backup value `bk`, which stays
untouched): the handler proceeds from the empty document `{}`, the
persisted result contains only the newly saved store — `newStoreValue`
being the saved value: the normalized array for `accounts`, a freshly
initialized single-key mapping for keyed `profile`/`timeline` saves, the
raw data otherwise — every other store's previous data is discarded, and
the client still receives `{success: true}`. -/
theorem parseFailure_save (bk : Option FileContent) (body : JsValue) (s : String)
    (d k : JsValue)
    (h1 : body.getProp "storeName" = .str s) (h2 : body.getProp "data" = d)
    (h3 : body.getProp "key" = k) (hs : s ∈ ALLOWED_STORES)
    (hjd : isJsonValue d = true) :
    apiPostData ⟨some .invalid, bk⟩ body =
      ⟨200, .obj [("success", .bool true)],
       ⟨some (.valid (.obj [(s, newStoreValue s d k)])), bk⟩, true, true⟩ ∧
    (∀ f', f' ≠ s → getField [(s, newStoreValue s d k)] f' = .undefined) := by
  have hfr : ∀ (v : JsValue) (f' : String), f' ≠ s → getField [(s, v)] f' = .undefined := by
    intro v f' hf
    show (if s = f' then v else getField [] f') = .undefined
    rw [if_neg (fun hh => hf hh.symm)]
    rfl
  refine ⟨?_, hfr _⟩
  have hj1 : isJsonFields (setField [] s (newStoreValue s d k)) = true := by
    simp [setField, isJsonFields, isJson_newStoreValue s d k hjd]
  have hok : applyStoreUpdate (.obj []) s (body.getProp "data") (body.getProp "key") =
      .ok (.obj (setField [] s (newStoreValue s d k))) := by
    rw [h2, h3]
    fin_cases hs
    · rw [show newStoreValue "accounts" d k = accountsValue d from by simp [newStoreValue]]
      exact applyStoreUpdate_accounts [] d k
    · cases htk : truthy k with
      | true =>
          rw [show newStoreValue "profile" d k = .obj [(jsToString k, d)] from by
            simp [newStoreValue, htk]]
          exact applyStoreUpdate_keyed_missing [] "profile" d k (Or.inl rfl) htk rfl
      | false =>
          rw [show newStoreValue "profile" d k = d from by simp [newStoreValue, htk]]
          exact applyStoreUpdate_replace [] "profile" d k (Or.inr (Or.inr ⟨Or.inl rfl, htk⟩))
    · cases htk : truthy k with
      | true =>
          rw [show newStoreValue "timeline" d k = .obj [(jsToString k, d)] from by
            simp [newStoreValue, htk]]
          exact applyStoreUpdate_keyed_missing [] "timeline" d k (Or.inr rfl) htk rfl
      | false =>
          rw [show newStoreValue "timeline" d k = d from by simp [newStoreValue, htk]]
          exact applyStoreUpdate_replace [] "timeline" d k (Or.inr (Or.inr ⟨Or.inr rfl, htk⟩))
    · rw [show newStoreValue "goals" d k = d from by simp [newStoreValue]]
      exact applyStoreUpdate_replace [] "goals" d k (Or.inl rfl)
    · rw [show newStoreValue "settings" d k = d from by simp [newStoreValue]]
      exact applyStoreUpdate_replace [] "settings" d k (Or.inr (Or.inl rfl))
  have happ := apiPostData_ok .invalid [] bk body s _ rfl h1 hs hok
  rw [happ, stringifyNorm_obj_eq _ hj1]
  rfl

/-- C9 witness: a goals save against a corrupt primary file succeeds and
persists a document containing only the goals store. -/
theorem parseFailure_save_witness :
    apiPostData ⟨some .invalid, none⟩
      (.obj [("storeName", .str "goals"), ("data", .arr [.num 1])]) =
      ⟨200, .obj [("success", .bool true)],
       ⟨some (.valid (.obj [("goals", .arr [.num 1])])), none⟩, true, true⟩ := by
  have h := (parseFailure_save none
    (.obj [("storeName", .str "goals"), ("data", .arr [.num 1])])
    "goals" (.arr [.num 1]) .undefined rfl rfl rfl (by decide) rfl).1
  rw [h]
  rfl

theorem applySettingsEnabled_timeoutMs (s' : MonState) (body : JsValue) :
    (applySettingsEnabled s' body).shutdownTimeoutMs = s'.shutdownTimeoutMs := by
  unfold applySettingsEnabled
  cases body.getProp "enabled" <;> rfl

theorem resetShutdownTimer_fields (t : ℚ) (s' : MonState) :
    (resetShutdownTimer t s').shutdownTimeoutMs = s'.shutdownTimeoutMs ∧
    (resetShutdownTimer t s').autoShutdownEnabled = s'.autoShutdownEnabled ∧
    (resetShutdownTimer t s').isCI = s'.isCI := by
  unfold resetShutdownTimer
  by_cases h : truthy s'.autoShutdownEnabled = false ∨ s'.isCI = true
  · rw [if_pos h]
    exact ⟨rfl, rfl, rfl⟩
  · rw [if_neg h]
    exact ⟨rfl, rfl, rfl⟩

theorem resetShutdownTimer_armed (t : ℚ) (s' : MonState)
    (he : truthy s'.autoShutdownEnabled = true) (hci : s'.isCI = false) :
    resetShutdownTimer t s' = { s' with shutdownTimer := some (t, s'.shutdownTimeoutMs) } := by
  unfold resetShutdownTimer
  rw [if_neg]
  rintro (h | h)
  · rw [he] at h
    cases h
  · rw [hci] at h
    cases h

/-- C10 counterexample: a non-numeric `timeout` stores `NaN` (modelled as
`none`) and re-arms with the `NaN` delay, but the JSON response does not
echo `NaN` back: `res.json`/`JSON.stringify` serializes `NaN` as `null`, so
the response's `timeout` field is `null` — not a number at all. -/
theorem settings_nan_null_response :
    (apiPostSystemSettings 0 ⟨none, some 10000, .bool true, false, 0⟩
       (.obj [("timeout", .str "abc")])).1.shutdownTimeoutMs = none ∧
    (apiPostSystemSettings 0 ⟨none, some 10000, .bool true, false, 0⟩
       (.obj [("timeout", .str "abc")])).2.getProp "timeout" = .null ∧
    isNumberJs ((apiPostSystemSettings 0 ⟨none, some 10000, .bool true, false, 0⟩
       (.obj [("timeout", .str "abc")])).2.getProp "timeout") = false ∧
    (apiPostSystemSettings 0 ⟨none, some 10000, .bool true, false, 0⟩
       (.obj [("timeout", .str "abc")])).1.shutdownTimer = some (0, none) :=
  ⟨rfl, rfl, rfl, rfl⟩

/-- C10 (amended): the system-settings endpoint never rejects its input —
for every deliverable request body (`body-parser` in strict mode only hands
the handler objects and arrays) it responds with `success: true`; if a
`timeout` field is present but does not parse as an integer, the stored
shutdown timeout becomes `NaN` (serialized as `null` in the JSON response,
since JSON cannot carry `NaN`), and the immediately re-armed countdown —
when auto-shutdown is enabled and not CI-suppressed — is scheduled with the
`NaN` delay instead of the previous valid timeout. -/
theorem systemSettings_spec (t : ℚ) (s : MonState) (body : JsValue)
    (hb : (∃ fsx, body = .obj fsx) ∨ (∃ xs, body = .arr xs)) :
    ((apiPostSystemSettings t s body).2.getProp "success" = .bool true) ∧
    (∀ tv, body.getProp "timeout" = tv → tv ≠ .undefined → jsParseInt tv = none →
       (apiPostSystemSettings t s body).1.shutdownTimeoutMs = none ∧
       (apiPostSystemSettings t s body).2.getProp "timeout" = .null ∧
       (truthy (apiPostSystemSettings t s body).1.autoShutdownEnabled = true →
        (apiPostSystemSettings t s body).1.isCI = false →
        (apiPostSystemSettings t s body).1.shutdownTimer = some (t, none))) := by
  constructor
  · rfl
  · intro tv htv hne hparse
    have h1 : (applySettingsTimeout s body).shutdownTimeoutMs = none := by
      unfold applySettingsTimeout
      rw [htv]
      cases tv <;> first
        | exact absurd rfl hne
        | simp [hparse]
    have hms0 : (resetShutdownTimer t (applySettingsEnabled (applySettingsTimeout s body)
        body)).shutdownTimeoutMs = none := by
      rw [(resetShutdownTimer_fields t _).1, applySettingsEnabled_timeoutMs, h1]
    refine ⟨hms0, ?_, ?_⟩
    · show jsonNum (((resetShutdownTimer t (applySettingsEnabled (applySettingsTimeout s body)
        body)).shutdownTimeoutMs).map (fun q => q / 1000)) = .null
      rw [hms0]
      rfl
    · intro hen hci
      have he2 : truthy (applySettingsEnabled (applySettingsTimeout s body)
          body).autoShutdownEnabled = true := by
        rw [← (resetShutdownTimer_fields t _).2.1]
        exact hen
      have hci2 : (applySettingsEnabled (applySettingsTimeout s body) body).isCI = false := by
        rw [← (resetShutdownTimer_fields t _).2.2]
        exact hci
      show (resetShutdownTimer t (applySettingsEnabled (applySettingsTimeout s body)
        body)).shutdownTimer = some (t, none)
      rw [resetShutdownTimer_armed t _ he2 hci2]
      show some (t, (applySettingsEnabled (applySettingsTimeout s body)
        body).shutdownTimeoutMs) = some (t, none)
      rw [applySettingsEnabled_timeoutMs, h1]

/-- C10 witness: the amended theorem applied at a concrete state and body
with an unparseable timeout. -/
theorem systemSettings_spec_witness :
    (apiPostSystemSettings 0 ⟨none, some 10000, .bool true, false, 0⟩
       (.obj [("timeout", .str "abc")])).2.getProp "success" = .bool true ∧
    (apiPostSystemSettings 0 ⟨none, some 10000, .bool true, false, 0⟩
       (.obj [("timeout", .str "abc")])).1.shutdownTimeoutMs = none := by
  obtain ⟨hsucc, hrest⟩ := systemSettings_spec 0 ⟨none, some 10000, .bool true, false, 0⟩
    (.obj [("timeout", .str "abc")]) (Or.inl ⟨_, rfl⟩)
  exact ⟨hsucc, (hrest (.str "abc") rfl (by simp) rfl).1⟩

end Hawkward
